import Mathlib

/-
Shallow embedding of the congestion-control decision core of the `indigo`
repository (files `dagger/policy.py` and `helpers/utils.py`).

Modelling conventions:
- Python floats are modelled as exact rationals (ℚ).  Every float constant
  occurring in the code (10.0, 25000.0, 300.0, 1000.0, 0.875, 0.125, 0.008,
  and the action operands 2.0, 10.0, 0.0) is exactly representable, and no
  claim concerns floating-point rounding.
- Python ints (timestamps, byte counters, `sys.maxint`) are modelled as ℤ.
- `None` is modelled as `Option.none`; the initial `float('inf')` of the
  running-minimum bookkeeping fields is modelled as `none` of an `Option ℚ`
  (with `min(inf, x) = x` captured by `min_bound`).
- A fatal termination (`sys.exit(...)` in the code, or the `TypeError` a
  `None` operand of `/` would raise) is modelled as `Except.error` with a
  tag naming the failure site; normal returns are `Except.ok`.
- `timestamp_ms()` (wall clock) is modelled by passing the clock reading of
  the event as an explicit argument `now`; the two reads inside
  `ack_received` happen within the same event and are modelled as the same
  value.
- `Message.total_size` comes from `message.py`, which is not part of the
  sources; no claim depends on its value, so it is passed as an explicit
  parameter `total_size` everywhere the code reads it.
-/

namespace Indigo

/-- Arithmetic operation tag: `operator.add`, `operator.sub`, `operator.mul`,
`operator.div` as selected in `format_actions` (utils.py lines 44-51).
Python 2 `operator.div` on floats is true division, i.e. ℚ division. -/
inductive Op where
  | add
  | sub
  | mul
  | div
  deriving DecidableEq

/-- Application of an operation tag, `op(cwnd, val)` in `policy.py` line 113. -/
def Op.apply : Op → ℚ → ℚ → ℚ
  | Op.add, a, b => a + b
  | Op.sub, a, b => a - b
  | Op.mul, a, b => a * b
  | Op.div, a, b => a / b

/-- Embedding of `format_actions` (utils.py lines 37-53).  Each action string
such as `"/2.0"` is represented by its leading operator character together
with the rational value of its numeric remainder (the `float(action[1:])`
conversion is applied at the representation boundary).  Unrecognised operator
characters append nothing, exactly as the Python chain of `elif`s does. -/
def format_actions : List (Char × ℚ) → List (Op × ℚ)
  | [] => []
  | (c, v) :: rest =>
    let tail := format_actions rest
    if c = '+' then (Op.add, v) :: tail
    else if c = '-' then (Op.sub, v) :: tail
    else if c = '*' then (Op.mul, v) :: tail
    else if c = '/' then (Op.div, v) :: tail
    else tail

/-- Class constant `Policy.min_cwnd = 10.0`. -/
def min_cwnd : ℚ := 10

/-- Class constant `Policy.max_cwnd = 25000.0`. -/
def max_cwnd : ℚ := 25000

/-- Class constant `Policy.max_rtt = 300.0` (ms). -/
def max_rtt : ℚ := 300

/-- Class constant `Policy.max_delay = max_rtt`. -/
def max_delay : ℚ := max_rtt

/-- Class constant `Policy.max_send_rate = 1000.0` (Mbps). -/
def max_send_rate : ℚ := 1000

/-- Class constant `Policy.max_delivery_rate = max_send_rate`. -/
def max_delivery_rate : ℚ := max_send_rate

/-- Class constant `Policy.min_step_len = 10` (ms). -/
def min_step_len : ℤ := 10

/-- Class constant `Policy.steps_per_episode = 1000`. -/
def steps_per_episode : ℕ := 1000

/-- Class constant `Policy.action_list`, the five action strings
`["/2.0", "-10.0", "+0.0", "+10.0", "*2.0"]` in pre-parsed form. -/
def action_list : List (Char × ℚ) := [('/', 2), ('-', 10), ('+', 0), ('+', 10), ('*', 2)]

/-- Class constant `Policy.action_cnt = len(action_list)`. -/
def action_cnt : ℕ := action_list.length

/-- Class constant `Policy.action_mapping = format_actions(action_list)`. -/
def action_mapping : List (Op × ℚ) := format_actions action_list

/-- Embedding of `update_ewma` (utils.py lines 99-103).  The accumulator is
`None` (unset) or a previous value; `float(new_value)` is the identity on ℚ. -/
def update_ewma (ewma : Option ℚ) (new_value : ℚ) : ℚ :=
  match ewma with
  | none => new_value
  | some e => 0.875 * e + 0.125 * new_value

/-- Running-minimum update against a field initialised to `float('inf')`
(policy.py lines 62-66 with the `min(...)` updates of `__update_state`):
`none` stands for the initial infinity, so `min(inf, x) = x`. -/
def min_bound (m : Option ℚ) (x : ℚ) : Option ℚ :=
  match m with
  | none => some x
  | some v => some (min v x)

/-- Acknowledgment record consumed by `Policy.ack_received`: the snapshot the
transport layer took when the acknowledged segment was previously handled
(fields read in `__update_state`: `send_ts`, `ack_recv_ts`, `bytes_sent`,
`bytes_acked`). -/
structure Ack where
  send_ts : ℤ
  ack_recv_ts : ℤ
  bytes_sent : ℤ
  bytes_acked : ℤ

/-- The mutable state of `Policy` (policy.py lines 42-73), one field per
Python attribute, in declaration order. -/
structure Policy where
  cwnd : ℚ
  bytes_sent : ℤ
  ack_recv_ts : ℤ
  bytes_acked : ℤ
  stop_sender : Bool
  train : Bool
  sample_action : Option (List ℚ → ℤ)
  step_start_ts : Option ℤ
  step_num : ℕ
  min_rtt : ℤ
  min_delay_ewma : Option ℚ
  max_delay_ewma : ℚ
  min_send_rate_ewma : Option ℚ
  max_send_rate_ewma : ℚ
  min_delivery_rate_ewma : Option ℚ
  max_delivery_rate_ewma : ℚ
  rtt_ewma : Option ℚ
  delay_ewma : Option ℚ
  send_rate_ewma : Option ℚ
  delivery_rate_ewma : Option ℚ

/-- Embedding of `Policy.__init__(train)` (policy.py lines 42-73).
`sys.maxint` on a 64-bit Python 2 build is `2^63 - 1`. -/
def init (train : Bool) : Policy :=
  { cwnd := 10
    bytes_sent := 0
    ack_recv_ts := 0
    bytes_acked := 0
    stop_sender := false
    train := train
    sample_action := none
    step_start_ts := none
    step_num := 0
    min_rtt := 9223372036854775807
    min_delay_ewma := none
    max_delay_ewma := 0
    min_send_rate_ewma := none
    max_send_rate_ewma := 0
    min_delivery_rate_ewma := none
    max_delivery_rate_ewma := 0
    rtt_ewma := none
    delay_ewma := none
    send_rate_ewma := none
    delivery_rate_ewma := none }

/-- Tag naming a fatal-termination site. -/
inductive Err where
  | invalid_action
  | no_sample_action
  | ewma_unset
  deriving DecidableEq, BEq

/-- Embedding of `Policy.__update_state(ack)` (policy.py lines 76-106). -/
def update_state (p : Policy) (ack : Ack) : Policy :=
  let rtt : ℤ := max 1 (p.ack_recv_ts - ack.send_ts)
  let min_rtt : ℤ := min p.min_rtt rtt
  let rtt_ewma : ℚ := update_ewma p.rtt_ewma (rtt : ℚ)
  let queuing_delay : ℤ := rtt - min_rtt
  let delay_ewma : ℚ := update_ewma p.delay_ewma (queuing_delay : ℚ)
  let min_delay_ewma := min_bound p.min_delay_ewma delay_ewma
  let max_delay_ewma := max p.max_delay_ewma delay_ewma
  let send_rate : ℚ := 0.008 * ((p.bytes_sent - ack.bytes_sent : ℤ) : ℚ) / (rtt : ℚ)
  let send_rate_ewma : ℚ := update_ewma p.send_rate_ewma send_rate
  let min_send_rate_ewma := min_bound p.min_send_rate_ewma send_rate_ewma
  let max_send_rate_ewma := max p.max_send_rate_ewma send_rate_ewma
  let duration : ℤ := max 1 (p.ack_recv_ts - ack.ack_recv_ts)
  let delivery_rate : ℚ := 0.008 * ((p.bytes_acked - ack.bytes_acked : ℤ) : ℚ) / (duration : ℚ)
  let delivery_rate_ewma : ℚ := update_ewma p.delivery_rate_ewma delivery_rate
  let min_delivery_rate_ewma := min_bound p.min_delivery_rate_ewma delivery_rate_ewma
  let max_delivery_rate_ewma := max p.max_delivery_rate_ewma delivery_rate_ewma
  { p with
    min_rtt := min_rtt
    rtt_ewma := some rtt_ewma
    delay_ewma := some delay_ewma
    min_delay_ewma := min_delay_ewma
    max_delay_ewma := max_delay_ewma
    send_rate_ewma := some send_rate_ewma
    min_send_rate_ewma := min_send_rate_ewma
    max_send_rate_ewma := max_send_rate_ewma
    delivery_rate_ewma := some delivery_rate_ewma
    min_delivery_rate_ewma := min_delivery_rate_ewma
    max_delivery_rate_ewma := max_delivery_rate_ewma }

/-- Clamp of policy.py line 114: `max(min_cwnd, min(max_cwnd, cwnd))`. -/
def clamp_cwnd (c : ℚ) : ℚ :=
  max min_cwnd (min max_cwnd c)

/-- Embedding of `Policy.__take_action(action)` (policy.py lines 108-114):
range check (`sys.exit` on violation), table lookup, operation, clamp. -/
def take_action (p : Policy) (action : ℤ) : Except Err Policy :=
  if h : action < 0 ∨ (action_cnt : ℤ) ≤ action then
    Except.error Err.invalid_action
  else
    let pair := action_mapping.get ⟨action.toNat, by
      rcases not_or.mp h with ⟨h1, h2⟩
      rw [show action_mapping.length = 5 from rfl]
      rw [show ((action_cnt : ℕ) : ℤ) = 5 from rfl] at h2
      omega⟩
    Except.ok { p with cwnd := clamp_cwnd (pair.1.apply p.cwnd pair.2) }

/-- Embedding of `Policy.__reset_step()` (policy.py lines 117-121). -/
def reset_step (p : Policy) : Policy :=
  { p with
    rtt_ewma := none
    delay_ewma := none
    send_rate_ewma := none
    delivery_rate_ewma := none }

/-- Embedding of `Policy.__episode_ended()` (policy.py lines 123-124). -/
def episode_ended (p : Policy) : Policy :=
  { p with stop_sender := true }

/-- Step counting at the tail of `Policy.__step_ended` (policy.py lines
146-150): in training mode increment `step_num` and end the episode once it
reaches `steps_per_episode`. -/
def step_count (p : Policy) : Policy :=
  if p.train then
    let p1 := { p with step_num := p.step_num + 1 }
    if steps_per_episode ≤ p1.step_num then episode_ended p1 else p1
  else p

/-- Embedding of `Policy.__step_ended()` (policy.py lines 126-150):
normalize the four per-step EWMA fields and `cwnd` (a `None` field would make
the division at lines 128-131 raise, modelled as `Err.ewma_unset`), require a
registered `sample_action` (`sys.exit` otherwise), apply the sampled action,
reset the per-step fields, and do the step counting. -/
def step_ended (p : Policy) : Except Err Policy :=
  match p.rtt_ewma, p.delay_ewma, p.send_rate_ewma, p.delivery_rate_ewma with
  | some r, some d, some s, some dr =>
    match p.sample_action with
    | none => Except.error Err.no_sample_action
    | some f =>
      (take_action p (f [r / max_rtt, d / max_delay, s / max_send_rate,
        dr / max_delivery_rate, p.cwnd / max_cwnd])).map
        (fun p1 => step_count (reset_step p1))
  | _, _, _, _ => Except.error Err.ewma_unset

/-- Embedding of `Policy.ack_received(ack)` (policy.py lines 153-165):
stamp the receive time, count the acked bytes, update the statistics,
initialize `step_start_ts` on the first ack, and fire the step boundary when
more than `min_step_len` ms have elapsed. -/
def ack_received (total_size : ℤ) (now : ℤ) (p : Policy) (ack : Ack) :
    Except Err Policy :=
  let p1 := { p with ack_recv_ts := now, bytes_acked := p.bytes_acked + total_size }
  let p2 := update_state p1 ack
  let start := p2.step_start_ts.getD now
  if min_step_len < now - start then
    step_ended { p2 with step_start_ts := some now }
  else
    Except.ok { p2 with step_start_ts := some start }

/-- Embedding of `Policy.data_sent(data)` (policy.py lines 167-168). -/
def data_sent (total_size : ℤ) (p : Policy) : Policy :=
  { p with bytes_sent := p.bytes_sent + total_size }

/-- Embedding of `Policy.timeout_ms()` (policy.py lines 170-171). -/
def timeout_ms (_ : Policy) : ℤ := -1

/-- Embedding of `Policy.set_sample_action(sample_action)` (policy.py lines
173-174). -/
def set_sample_action (p : Policy) (f : List ℚ → ℤ) : Policy :=
  { p with sample_action := some f }

/-- The events the environment can drive a `Policy` with: the two public
notifications and the registration of the action-selection function. -/
inductive Event where
  | data_sent
  | ack_received (now : ℤ) (ack : Ack)
  | set_sample_action (f : List ℚ → ℤ)

/-- One environment event applied to a policy state. -/
def step (total_size : ℤ) (p : Policy) : Event → Except Err Policy
  | Event.data_sent => Except.ok (data_sent total_size p)
  | Event.ack_received now ack => ack_received total_size now p ack
  | Event.set_sample_action f => Except.ok (set_sample_action p f)

/-- A run of the policy over a list of events; a fatal exit aborts the run. -/
def run (total_size : ℤ) (p : Policy) : List Event → Except Err Policy
  | [] => Except.ok p
  | e :: es =>
    match step total_size p e with
    | Except.ok q => run total_size q es
    | Except.error err => Except.error err

/-- Whether an event makes the step-boundary condition of policy.py line 163
hold in state `p` (for an ack at clock reading `now`, more than
`min_step_len` ms elapsed since `step_start_ts`, taking the first-ack
initialization into account). -/
def fires (p : Policy) : Event → Bool
  | Event.ack_received now _ => decide (min_step_len < now - p.step_start_ts.getD now)
  | _ => false

/-- Number of step boundaries that fire along a run (counting stops at a
fatal exit; under an `Except.ok` run hypothesis none occurs). -/
def count_fires (total_size : ℤ) (p : Policy) : List Event → ℕ
  | [] => 0
  | e :: es =>
    (if fires p e then 1 else 0) +
      match step total_size p e with
      | Except.ok q => count_fires total_size q es
      | Except.error _ => 0

/-- The observation vector built at a step boundary (policy.py lines
128-136), read off a state whose four per-step EWMA fields are set (the
`getD 0` defaults are never exercised there). -/
def observation (p : Policy) : List ℚ :=
  [p.rtt_ewma.getD 0 / max_rtt, p.delay_ewma.getD 0 / max_delay,
    p.send_rate_ewma.getD 0 / max_send_rate,
    p.delivery_rate_ewma.getD 0 / max_delivery_rate, p.cwnd / max_cwnd]

/-- Closed-form EWMA recurrence stated by the spec: `e1 = s1` and
`ek = 0.875 * e(k-1) + 0.125 * sk` over samples `s1 :: rest`. -/
def spec_ewma_rec (s1 : ℚ) (rest : List ℚ) : ℚ :=
  rest.foldl (fun e sk => 0.875 * e + 0.125 * sk) s1

/-- Concrete acknowledgment record used to evaluate the model on sample runs
(all four snapshot fields zero). -/
def ack0 : Ack := ⟨0, 0, 0, 0⟩

/-- State after feeding `ack0` at clock reading 0 to a freshly constructed
non-training policy (with `total_size = 1`): the first acknowledgment of a
connection, written out field by field. -/
def first_ack_state : Policy :=
  { cwnd := 10
    bytes_sent := 0
    ack_recv_ts := 0
    bytes_acked := 1
    stop_sender := false
    train := false
    sample_action := none
    step_start_ts := some 0
    step_num := 0
    min_rtt := 1
    min_delay_ewma := some 0
    max_delay_ewma := 0
    min_send_rate_ewma := some 0
    max_send_rate_ewma := 0
    min_delivery_rate_ewma := some 0.008
    max_delivery_rate_ewma := 0.008
    rtt_ewma := some 1
    delay_ewma := some 0
    send_rate_ewma := some 0
    delivery_rate_ewma := some 0.008 }

/-- Fresh non-training policy whose step timer started 20 ms in the past, so
that an acknowledgment at clock reading 0 crosses the step boundary. -/
def boundary_state : Policy :=
  { init false with step_start_ts := some (-20) }

end Indigo

namespace Indigo

/-! Helper lemmas about the embedded operations, shared by the claim
theorems below. -/

lemma action_mapping_eq :
    action_mapping = [(Op.div, 2), (Op.sub, 10), (Op.add, 0), (Op.add, 10), (Op.mul, 2)] := rfl

lemma update_state_step_start_ts (p : Policy) (ack : Ack) :
    (update_state p ack).step_start_ts = p.step_start_ts := rfl

lemma update_state_step_num (p : Policy) (ack : Ack) :
    (update_state p ack).step_num = p.step_num := rfl

lemma update_state_stop_sender (p : Policy) (ack : Ack) :
    (update_state p ack).stop_sender = p.stop_sender := rfl

lemma update_state_sample_action (p : Policy) (ack : Ack) :
    (update_state p ack).sample_action = p.sample_action := rfl

lemma update_state_train (p : Policy) (ack : Ack) :
    (update_state p ack).train = p.train := rfl

lemma update_state_cwnd (p : Policy) (ack : Ack) :
    (update_state p ack).cwnd = p.cwnd := rfl

lemma update_state_min_rtt (p : Policy) (ack : Ack) :
    (update_state p ack).min_rtt = min p.min_rtt (max 1 (p.ack_recv_ts - ack.send_ts)) := rfl

lemma update_state_rtt_ewma (p : Policy) (ack : Ack) :
    (update_state p ack).rtt_ewma =
      some (update_ewma p.rtt_ewma ((max 1 (p.ack_recv_ts - ack.send_ts) : ℤ) : ℚ)) := rfl

lemma update_state_delay_ewma (p : Policy) (ack : Ack) :
    (update_state p ack).delay_ewma =
      some (update_ewma p.delay_ewma
        ((max 1 (p.ack_recv_ts - ack.send_ts) -
          min p.min_rtt (max 1 (p.ack_recv_ts - ack.send_ts)) : ℤ) : ℚ)) := rfl

lemma update_state_send_rate_ewma (p : Policy) (ack : Ack) :
    (update_state p ack).send_rate_ewma =
      some (update_ewma p.send_rate_ewma
        (0.008 * ((p.bytes_sent - ack.bytes_sent : ℤ) : ℚ) /
          ((max 1 (p.ack_recv_ts - ack.send_ts) : ℤ) : ℚ))) := rfl

lemma update_state_delivery_rate_ewma (p : Policy) (ack : Ack) :
    (update_state p ack).delivery_rate_ewma =
      some (update_ewma p.delivery_rate_ewma
        (0.008 * ((p.bytes_acked - ack.bytes_acked : ℤ) : ℚ) /
          ((max 1 (p.ack_recv_ts - ack.ack_recv_ts) : ℤ) : ℚ))) := rfl

lemma clamp_cwnd_bounds (c : ℚ) : min_cwnd ≤ clamp_cwnd c ∧ clamp_cwnd c ≤ max_cwnd := by
  unfold clamp_cwnd
  refine ⟨le_max_left _ _, max_le ?_ (min_le_left _ _)⟩
  norm_num [min_cwnd, max_cwnd]

lemma take_action_error_iff (p : Policy) (a : ℤ) (e : Err) :
    take_action p a = Except.error e ↔
      ((a < 0 ∨ (action_cnt : ℤ) ≤ a) ∧ e = Err.invalid_action) := by
  unfold take_action
  split
  · rename_i hcond
    simp [hcond, eq_comm]
  · rename_i hcond
    simp [hcond]

lemma take_action_ok_fields {p : Policy} {a : ℤ} {q : Policy}
    (h : take_action p a = Except.ok q) :
    q.train = p.train ∧ q.stop_sender = p.stop_sender ∧ q.step_num = p.step_num ∧
    q.step_start_ts = p.step_start_ts ∧ q.sample_action = p.sample_action ∧
    q.min_rtt = p.min_rtt ∧ q.rtt_ewma = p.rtt_ewma ∧ q.delay_ewma = p.delay_ewma ∧
    q.send_rate_ewma = p.send_rate_ewma ∧ q.delivery_rate_ewma = p.delivery_rate_ewma ∧
    min_cwnd ≤ q.cwnd ∧ q.cwnd ≤ max_cwnd := by
  unfold take_action at h
  split at h
  · exact Except.noConfusion h
  · injection h with h
    subst h
    exact ⟨rfl, rfl, rfl, rfl, rfl, rfl, rfl, rfl, rfl, rfl,
      (clamp_cwnd_bounds _).1, (clamp_cwnd_bounds _).2⟩

lemma take_action_ok_of_in_range {p : Policy} {a : ℤ}
    (h : ¬(a < 0 ∨ (action_cnt : ℤ) ≤ a)) :
    ∃ q, take_action p a = Except.ok q := by
  unfold take_action
  split
  · rename_i hcond
    exact absurd hcond h
  · exact ⟨_, rfl⟩

lemma except_map_ok {α β γ : Type _} {g : α → β} {x : Except γ α} {q : β}
    (h : Except.map g x = Except.ok q) : ∃ a, x = Except.ok a ∧ q = g a := by
  cases x with
  | ok a =>
    refine ⟨a, rfl, ?_⟩
    simpa [Except.map] using h.symm
  | error e => simp [Except.map] at h

lemma except_map_error_iff {α β γ : Type _} {g : α → β} {x : Except γ α} {e : γ} :
    Except.map g x = Except.error e ↔ x = Except.error e := by
  cases x <;> simp [Except.map]

lemma step_count_train (p : Policy) : (step_count p).train = p.train := by
  by_cases ht : p.train = true
  · by_cases hn : steps_per_episode ≤ p.step_num + 1
    · simp [step_count, episode_ended, ht, hn]
    · simp [step_count, episode_ended, ht, hn]
  · simp [step_count, episode_ended, ht]

lemma step_count_cwnd (p : Policy) : (step_count p).cwnd = p.cwnd := by
  by_cases ht : p.train = true
  · by_cases hn : steps_per_episode ≤ p.step_num + 1
    · simp [step_count, episode_ended, ht, hn]
    · simp [step_count, episode_ended, ht, hn]
  · simp [step_count, episode_ended, ht]

lemma step_count_step_start_ts (p : Policy) : (step_count p).step_start_ts = p.step_start_ts := by
  by_cases ht : p.train = true
  · by_cases hn : steps_per_episode ≤ p.step_num + 1
    · simp [step_count, episode_ended, ht, hn]
    · simp [step_count, episode_ended, ht, hn]
  · simp [step_count, episode_ended, ht]

lemma step_count_sample_action (p : Policy) : (step_count p).sample_action = p.sample_action := by
  by_cases ht : p.train = true
  · by_cases hn : steps_per_episode ≤ p.step_num + 1
    · simp [step_count, episode_ended, ht, hn]
    · simp [step_count, episode_ended, ht, hn]
  · simp [step_count, episode_ended, ht]

lemma step_count_min_rtt (p : Policy) : (step_count p).min_rtt = p.min_rtt := by
  by_cases ht : p.train = true
  · by_cases hn : steps_per_episode ≤ p.step_num + 1
    · simp [step_count, episode_ended, ht, hn]
    · simp [step_count, episode_ended, ht, hn]
  · simp [step_count, episode_ended, ht]

lemma step_count_rtt_ewma (p : Policy) : (step_count p).rtt_ewma = p.rtt_ewma := by
  by_cases ht : p.train = true
  · by_cases hn : steps_per_episode ≤ p.step_num + 1
    · simp [step_count, episode_ended, ht, hn]
    · simp [step_count, episode_ended, ht, hn]
  · simp [step_count, episode_ended, ht]

lemma step_count_delay_ewma (p : Policy) : (step_count p).delay_ewma = p.delay_ewma := by
  by_cases ht : p.train = true
  · by_cases hn : steps_per_episode ≤ p.step_num + 1
    · simp [step_count, episode_ended, ht, hn]
    · simp [step_count, episode_ended, ht, hn]
  · simp [step_count, episode_ended, ht]

lemma step_count_send_rate_ewma (p : Policy) : (step_count p).send_rate_ewma = p.send_rate_ewma := by
  by_cases ht : p.train = true
  · by_cases hn : steps_per_episode ≤ p.step_num + 1
    · simp [step_count, episode_ended, ht, hn]
    · simp [step_count, episode_ended, ht, hn]
  · simp [step_count, episode_ended, ht]

lemma step_count_delivery_rate_ewma (p : Policy) : (step_count p).delivery_rate_ewma = p.delivery_rate_ewma := by
  by_cases ht : p.train = true
  · by_cases hn : steps_per_episode ≤ p.step_num + 1
    · simp [step_count, episode_ended, ht, hn]
    · simp [step_count, episode_ended, ht, hn]
  · simp [step_count, episode_ended, ht]

lemma step_count_step_num (p : Policy) :
    (step_count p).step_num = (if p.train = true then p.step_num + 1 else p.step_num) := by
  by_cases ht : p.train = true
  · by_cases hn : steps_per_episode ≤ p.step_num + 1
    · simp [step_count, episode_ended, ht, hn]
    · simp [step_count, episode_ended, ht, hn]
  · simp [step_count, episode_ended, ht]

lemma step_count_stop_sender (p : Policy) :
    (step_count p).stop_sender =
      (if p.train = true ∧ steps_per_episode ≤ p.step_num + 1 then true
        else p.stop_sender) := by
  by_cases ht : p.train = true
  · by_cases hn : steps_per_episode ≤ p.step_num + 1
    · simp [step_count, episode_ended, ht, hn]
    · simp [step_count, episode_ended, ht, hn]
  · simp [step_count, episode_ended, ht]

lemma ack_received_eq (ts now : ℤ) (p : Policy) (ack : Ack) :
    ack_received ts now p ack =
      (if min_step_len < now - p.step_start_ts.getD now then
        step_ended
          { update_state { p with ack_recv_ts := now, bytes_acked := p.bytes_acked + ts } ack with
            step_start_ts := some now }
      else
        Except.ok
          { update_state { p with ack_recv_ts := now, bytes_acked := p.bytes_acked + ts } ack with
            step_start_ts := some (p.step_start_ts.getD now) }) := rfl

lemma step_ended_update_state (u : Policy) (ack : Ack) (sts : Option ℤ) :
    step_ended { update_state u ack with step_start_ts := sts } =
      (match u.sample_action with
        | none => Except.error Err.no_sample_action
        | some f =>
          Except.map (fun p1 => step_count (reset_step p1))
            (take_action { update_state u ack with step_start_ts := sts }
              (f (observation (update_state u ack))))) := rfl

lemma fires_ack (p : Policy) (now : ℤ) (ack : Ack) :
    fires p (Event.ack_received now ack) =
      decide (min_step_len < now - p.step_start_ts.getD now) := rfl

lemma step_ended_ok_of_update {u : Policy} {ack : Ack} {v : Option ℤ} {q : Policy}
    (h : step_ended { update_state u ack with step_start_ts := v } = Except.ok q) :
    q.train = u.train ∧ q.step_start_ts = v ∧ q.sample_action = u.sample_action ∧
    q.min_rtt = min u.min_rtt (max 1 (u.ack_recv_ts - ack.send_ts)) ∧
    q.rtt_ewma = none ∧ q.delay_ewma = none ∧ q.send_rate_ewma = none ∧
    q.delivery_rate_ewma = none ∧
    q.step_num = (if u.train = true then u.step_num + 1 else u.step_num) ∧
    q.stop_sender =
      (if u.train = true ∧ steps_per_episode ≤ u.step_num + 1 then true
        else u.stop_sender) ∧
    min_cwnd ≤ q.cwnd ∧ q.cwnd ≤ max_cwnd := by
  rw [step_ended_update_state] at h
  cases hsa : u.sample_action with
  | none =>
    rw [hsa] at h
    exact Except.noConfusion h
  | some f =>
    rw [hsa] at h
    obtain ⟨p1, hta, rfl⟩ := except_map_ok h
    obtain ⟨htr, hss, hsn, hsts, hsa2, hmr, _, _, _, _, hc1, hc2⟩ := take_action_ok_fields hta
    have etr : (reset_step p1).train = u.train := htr
    have esn : (reset_step p1).step_num = u.step_num := hsn
    have ess : (reset_step p1).stop_sender = u.stop_sender := hss
    refine ⟨?_, ?_, ?_, ?_, ?_, ?_, ?_, ?_, ?_, ?_, ?_, ?_⟩
    · rw [step_count_train]
      exact etr
    · rw [step_count_step_start_ts]
      exact hsts
    · rw [step_count_sample_action]
      exact hsa2.trans hsa
    · rw [step_count_min_rtt]
      exact hmr
    · exact step_count_rtt_ewma (reset_step p1)
    · exact step_count_delay_ewma (reset_step p1)
    · exact step_count_send_rate_ewma (reset_step p1)
    · exact step_count_delivery_rate_ewma (reset_step p1)
    · rw [step_count_step_num, etr, esn]
    · rw [step_count_stop_sender, etr, esn, ess]
    · rw [step_count_cwnd]
      exact hc1
    · rw [step_count_cwnd]
      exact hc2

lemma step_ok_fields {ts : ℤ} {p : Policy} {e : Event} {q : Policy}
    (h : step ts p e = Except.ok q) :
    q.train = p.train ∧
    q.min_rtt ≤ p.min_rtt ∧
    (min_cwnd ≤ p.cwnd ∧ p.cwnd ≤ max_cwnd → min_cwnd ≤ q.cwnd ∧ q.cwnd ≤ max_cwnd) ∧
    q.step_num = (if fires p e = true ∧ p.train = true then p.step_num + 1
      else p.step_num) ∧
    q.stop_sender = (if fires p e = true ∧ p.train = true ∧
        steps_per_episode ≤ p.step_num + 1 then true else p.stop_sender) := by
  cases e with
  | data_sent =>
    simp only [step] at h
    injection h with h
    subst h
    refine ⟨rfl, le_rfl, fun hb => hb, ?_, ?_⟩ <;> simp [fires, data_sent]
  | set_sample_action f =>
    simp only [step] at h
    injection h with h
    subst h
    refine ⟨rfl, le_rfl, fun hb => hb, ?_, ?_⟩ <;> simp [fires, set_sample_action]
  | ack_received now ack =>
    simp only [step] at h
    rw [ack_received_eq] at h
    by_cases hfire : min_step_len < now - p.step_start_ts.getD now
    · rw [if_pos hfire] at h
      obtain ⟨htr, _, _, hmr, _, _, _, _, hsn, hss, hc1, hc2⟩ := step_ended_ok_of_update h
      have hf : fires p (Event.ack_received now ack) = true := by
        rw [fires_ack]
        exact decide_eq_true hfire
      refine ⟨htr, ?_, fun _ => ⟨hc1, hc2⟩, ?_, ?_⟩
      · rw [hmr]
        exact min_le_left _ _
      · simp only [hf, true_and]
        exact hsn
      · simp only [hf, true_and]
        exact hss
    · rw [if_neg hfire] at h
      injection h with h
      subst h
      have hf : fires p (Event.ack_received now ack) = false := by
        rw [fires_ack]
        exact decide_eq_false hfire
      refine ⟨rfl, ?_, fun hb => hb, ?_, ?_⟩
      · exact min_le_left _ _
      · simp [hf, update_state_step_num]
      · simp [hf, update_state_stop_sender]

lemma run_preserve (ts : ℤ) (Inv : Policy → Prop)
    (hstep : ∀ p e q, step ts p e = Except.ok q → Inv p → Inv q) :
    ∀ es (p q : Policy), run ts p es = Except.ok q → Inv p → Inv q := by
  intro es
  induction es with
  | nil =>
    intro p q h hI
    simp only [run] at h
    injection h with h
    exact h ▸ hI
  | cons e es ih =>
    intro p q h hI
    simp only [run] at h
    cases hs : step ts p e with
    | ok r =>
      rw [hs] at h
      exact ih r q h (hstep p e r hs hI)
    | error err =>
      rw [hs] at h
      exact Except.noConfusion h

lemma run_train_count (ts : ℤ) :
    ∀ es (p q : Policy), p.train = true → run ts p es = Except.ok q →
      q.train = true ∧ q.step_num = p.step_num + count_fires ts p es ∧
      ((p.stop_sender = true ↔ steps_per_episode ≤ p.step_num) →
        (q.stop_sender = true ↔ steps_per_episode ≤ q.step_num)) := by
  intro es
  induction es with
  | nil =>
    intro p q ht h
    simp only [run] at h
    injection h with h
    subst h
    exact ⟨ht, by simp [count_fires], fun hI => hI⟩
  | cons e es ih =>
    intro p q ht h
    simp only [run] at h
    cases hs : step ts p e with
    | error err =>
      rw [hs] at h
      exact Except.noConfusion h
    | ok r =>
      rw [hs] at h
      obtain ⟨htr, _, _, hsn, hss⟩ := step_ok_fields hs
      have htr2 : r.train = true := htr.trans ht
      obtain ⟨ih1, ih2, ih3⟩ := ih r q htr2 h
      have hc : count_fires ts p (e :: es) =
          (if fires p e then 1 else 0) + count_fires ts r es := by
        simp only [count_fires, hs]
      refine ⟨ih1, ?_, ?_⟩
      · rw [hc, ih2, hsn]
        by_cases hf : fires p e = true
        all_goals simp [hf, ht]
        all_goals omega
      · intro hI
        apply ih3
        rw [hsn, hss]
        by_cases hf : fires p e = true
        · by_cases hn : steps_per_episode ≤ p.step_num + 1
          · simp [hf, ht, hn]
          · have hps : p.stop_sender = false := by
              rcases Bool.eq_false_or_eq_true p.stop_sender with hb | hb
              · exact absurd (hI.mp hb) (by omega)
              · exact hb
            simp [hf, ht, hn, hps]
        · simp [hf]
          exact hI

/-! Claim theorems. -/

/-- Claim C1: for every reachable state of the Policy (initial cwnd 10, then
any sequence of data_sent, ack_received and set_sample_action events, with
any action indices returned by the registered action-selection function),
cwnd lies in the interval from 10 to 25000 at every point visible outside
the Controller, in particular after every action application. -/
theorem cwnd_window_clamp :
    (∀ (p : Policy) (a : ℤ) (q : Policy), take_action p a = Except.ok q →
      10 ≤ q.cwnd ∧ q.cwnd ≤ 25000) ∧
    (∀ (ts : ℤ) (train : Bool) (es : List Event) (q : Policy),
      run ts (init train) es = Except.ok q → 10 ≤ q.cwnd ∧ q.cwnd ≤ 25000) := by
  have hta : ∀ (p : Policy) (a : ℤ) (q : Policy), take_action p a = Except.ok q →
      10 ≤ q.cwnd ∧ q.cwnd ≤ 25000 := by
    intro p a q h
    obtain ⟨_, _, _, _, _, _, _, _, _, _, hc1, hc2⟩ := take_action_ok_fields h
    exact ⟨hc1, hc2⟩
  refine ⟨hta, ?_⟩
  intro ts train es q h
  refine run_preserve ts (fun r => 10 ≤ r.cwnd ∧ r.cwnd ≤ 25000) ?_ es (init train) q h ?_
  · intro p1 e q1 hs hI
    obtain ⟨_, _, hcw, _, _⟩ := step_ok_fields hs
    exact hcw hI
  · norm_num [init]

/-- Witness for C1: the empty run from a fresh training policy, whose window
is within bounds. -/
theorem cwnd_window_clamp_witness :
    run 1500 (init true) [] = Except.ok (init true) ∧
    10 ≤ (init true).cwnd ∧ (init true).cwnd ≤ 25000 :=
  ⟨rfl, cwnd_window_clamp.2 1500 true [] (init true) rfl⟩

/-- Claim C2: applying an action index to the congestion window implements
the fixed ordered vocabulary, index 0 divides cwnd by 2, index 1 subtracts
10, index 2 adds 0, index 3 adds 10, index 4 multiplies by 2, followed by
clamping to the interval from 10 to 25000; concretely index 0 on cwnd 100
yields 50, index 1 yields 90, index 2 yields 100, index 3 yields 110, index
4 yields 200, and index 4 on cwnd 20000 yields 25000. -/
theorem action_table :
    (∀ p : Policy, take_action p 0 = Except.ok { p with cwnd := clamp_cwnd (p.cwnd / 2) }) ∧
    (∀ p : Policy, take_action p 1 = Except.ok { p with cwnd := clamp_cwnd (p.cwnd - 10) }) ∧
    (∀ p : Policy, take_action p 2 = Except.ok { p with cwnd := clamp_cwnd (p.cwnd + 0) }) ∧
    (∀ p : Policy, take_action p 3 = Except.ok { p with cwnd := clamp_cwnd (p.cwnd + 10) }) ∧
    (∀ p : Policy, take_action p 4 = Except.ok { p with cwnd := clamp_cwnd (p.cwnd * 2) }) ∧
    (take_action { init false with cwnd := 100 } 0).map Policy.cwnd = Except.ok 50 ∧
    (take_action { init false with cwnd := 100 } 1).map Policy.cwnd = Except.ok 90 ∧
    (take_action { init false with cwnd := 100 } 2).map Policy.cwnd = Except.ok 100 ∧
    (take_action { init false with cwnd := 100 } 3).map Policy.cwnd = Except.ok 110 ∧
    (take_action { init false with cwnd := 100 } 4).map Policy.cwnd = Except.ok 200 ∧
    (take_action { init false with cwnd := 20000 } 4).map Policy.cwnd = Except.ok 25000 := by
  refine ⟨fun p => rfl, fun p => rfl, fun p => rfl, fun p => rfl, fun p => rfl,
    ?_, ?_, ?_, ?_, ?_, ?_⟩
  · have h : take_action ({ init false with cwnd := 100 } : Policy) 0 =
        Except.ok { ({ init false with cwnd := 100 } : Policy) with
          cwnd := clamp_cwnd ((100 : ℚ) / 2) } := rfl
    rw [h]
    norm_num [Except.map, clamp_cwnd, min_cwnd, max_cwnd]
  · have h : take_action ({ init false with cwnd := 100 } : Policy) 1 =
        Except.ok { ({ init false with cwnd := 100 } : Policy) with
          cwnd := clamp_cwnd ((100 : ℚ) - 10) } := rfl
    rw [h]
    norm_num [Except.map, clamp_cwnd, min_cwnd, max_cwnd]
  · have h : take_action ({ init false with cwnd := 100 } : Policy) 2 =
        Except.ok { ({ init false with cwnd := 100 } : Policy) with
          cwnd := clamp_cwnd ((100 : ℚ) + 0) } := rfl
    rw [h]
    norm_num [Except.map, clamp_cwnd, min_cwnd, max_cwnd]
  · have h : take_action ({ init false with cwnd := 100 } : Policy) 3 =
        Except.ok { ({ init false with cwnd := 100 } : Policy) with
          cwnd := clamp_cwnd ((100 : ℚ) + 10) } := rfl
    rw [h]
    norm_num [Except.map, clamp_cwnd, min_cwnd, max_cwnd]
  · have h : take_action ({ init false with cwnd := 100 } : Policy) 4 =
        Except.ok { ({ init false with cwnd := 100 } : Policy) with
          cwnd := clamp_cwnd ((100 : ℚ) * 2) } := rfl
    rw [h]
    norm_num [Except.map, clamp_cwnd, min_cwnd, max_cwnd]
  · have h : take_action ({ init false with cwnd := 20000 } : Policy) 4 =
        Except.ok { ({ init false with cwnd := 20000 } : Policy) with
          cwnd := clamp_cwnd ((20000 : ℚ) * 2) } := rfl
    rw [h]
    norm_num [Except.map, clamp_cwnd, min_cwnd, max_cwnd]

/-- Claim C4: constructed with train set, after exactly 1000 step boundaries
have fired stop_sender becomes true, and in every subsequent reachable state
it remains true; no operation ever resets it to false. -/
theorem episode_termination :
    (∀ (ts : ℤ) (p : Policy) (e : Event) (q : Policy),
      step ts p e = Except.ok q → p.stop_sender = true → q.stop_sender = true) ∧
    (∀ (ts : ℤ) (es : List Event) (q : Policy),
      run ts (init true) es = Except.ok q →
      q.step_num = count_fires ts (init true) es ∧
      (q.stop_sender = true ↔ steps_per_episode ≤ q.step_num)) := by
  constructor
  · intro ts p e q h hstop
    obtain ⟨_, _, _, _, hss⟩ := step_ok_fields h
    rw [hss, hstop]
    split <;> rfl
  · intro ts es q h
    obtain ⟨_, h2, h3⟩ := run_train_count ts es (init true) q rfl h
    refine ⟨by simpa [init] using h2, h3 ?_⟩
    simp [init, steps_per_episode]

/-- Witness for C4: the empty run from a fresh training policy. -/
theorem episode_termination_witness :
    run 1500 (init true) [] = Except.ok (init true) ∧
    (init true).step_num = count_fires 1500 (init true) [] ∧
    ((init true).stop_sender = true ↔ steps_per_episode ≤ (init true).step_num) :=
  ⟨rfl, episode_termination.2 1500 [] (init true) rfl⟩

/-- Claim C5: for every sequence of samples fed to the same EWMA accumulator
within one step, the smoothed value equals the closed-form recurrence with
first value the first sample and each later value 0.875 times the previous
plus 0.125 times the sample; update_ewma returns the new sample when the
accumulator is unset and the weighted combination otherwise. -/
theorem ewma_closed_form :
    (∀ v : ℚ, update_ewma none v = v) ∧
    (∀ e v : ℚ, update_ewma (some e) v = 0.875 * e + 0.125 * v) ∧
    (∀ (s1 : ℚ) (rest : List ℚ),
      List.foldl (fun acc s => some (update_ewma acc s)) none (s1 :: rest) =
        some (spec_ewma_rec s1 rest)) := by
  refine ⟨fun v => rfl, fun e v => rfl, ?_⟩
  intro s1 rest
  have key : ∀ (l : List ℚ) (e : ℚ),
      List.foldl (fun acc s => some (update_ewma acc s)) (some e) l =
        some (List.foldl (fun ek sk => 0.875 * ek + 0.125 * sk) e l) := by
    intro l
    induction l with
    | nil => intro e; rfl
    | cons x xs ih =>
      intro e
      simpa [update_ewma] using ih (0.875 * e + 0.125 * x)
  simpa [spec_ewma_rec, update_ewma] using key rest s1

/-- Claim C6: min_rtt never increases across any event or run, is bounded by
the current rtt sample of each acknowledgment, and the queuing-delay sample
fed to the delay EWMA in each state update is nonnegative. -/
theorem min_rtt_monotone :
    (∀ (ts : ℤ) (p : Policy) (e : Event) (q : Policy),
      step ts p e = Except.ok q → q.min_rtt ≤ p.min_rtt) ∧
    (∀ (ts : ℤ) (es : List Event) (p q : Policy),
      run ts p es = Except.ok q → q.min_rtt ≤ p.min_rtt) ∧
    (∀ (p : Policy) (ack : Ack),
      (update_state p ack).min_rtt ≤ max 1 (p.ack_recv_ts - ack.send_ts) ∧
      (update_state p ack).min_rtt ≤ p.min_rtt ∧
      ∃ qd : ℤ, 0 ≤ qd ∧
        (update_state p ack).delay_ewma = some (update_ewma p.delay_ewma (qd : ℚ))) := by
  have hstep : ∀ (ts : ℤ) (p : Policy) (e : Event) (q : Policy),
      step ts p e = Except.ok q → q.min_rtt ≤ p.min_rtt :=
    fun ts p e q h => (step_ok_fields h).2.1
  refine ⟨hstep, ?_, ?_⟩
  · intro ts es p q h
    exact run_preserve ts (fun r => r.min_rtt ≤ p.min_rtt)
      (fun p1 e q1 hs hI => le_trans (hstep ts p1 e q1 hs) hI) es p q h le_rfl
  · intro p ack
    refine ⟨?_, ?_, ?_⟩
    · rw [update_state_min_rtt]
      exact min_le_right _ _
    · rw [update_state_min_rtt]
      exact min_le_left _ _
    · refine ⟨max 1 (p.ack_recv_ts - ack.send_ts) -
        min p.min_rtt (max 1 (p.ack_recv_ts - ack.send_ts)), ?_,
        update_state_delay_ewma p ack⟩
      have h1 := min_le_right p.min_rtt (max 1 (p.ack_recv_ts - ack.send_ts))
      omega

/-- Witness for C6: a data_sent event leaves min_rtt unchanged, hence
non-increasing. -/
theorem min_rtt_monotone_witness :
    step 1 (init false) Event.data_sent = Except.ok (data_sent 1 (init false)) ∧
    (data_sent 1 (init false)).min_rtt ≤ (init false).min_rtt :=
  ⟨rfl, min_rtt_monotone.1 1 (init false) Event.data_sent (data_sent 1 (init false)) rfl⟩

/-- Claim C10: constructed with train unset, for every sequence of events
(with any registered action-selection function) step_num remains 0 and
stop_sender remains false: a non-training Controller never signals episode
termination on its own. -/
theorem non_training_never_stops :
    ∀ (ts : ℤ) (es : List Event) (q : Policy),
      run ts (init false) es = Except.ok q →
      q.step_num = 0 ∧ q.stop_sender = false := by
  intro ts es q h
  have hstep : ∀ (p1 : Policy) (e : Event) (q1 : Policy), step ts p1 e = Except.ok q1 →
      (p1.train = false ∧ p1.step_num = 0 ∧ p1.stop_sender = false) →
      (q1.train = false ∧ q1.step_num = 0 ∧ q1.stop_sender = false) := by
    intro p1 e q1 hs hI
    obtain ⟨hI1, hI2, hI3⟩ := hI
    obtain ⟨htr, _, _, hsn, hss⟩ := step_ok_fields hs
    refine ⟨htr.trans hI1, ?_, ?_⟩
    · rw [hsn, hI1]
      simp [hI2]
    · rw [hss, hI1]
      simp [hI3]
  have main := run_preserve ts
      (fun r => r.train = false ∧ r.step_num = 0 ∧ r.stop_sender = false)
      hstep es (init false) q h ⟨rfl, rfl, rfl⟩
  exact ⟨main.2.1, main.2.2⟩

/-- Witness for C10: the empty run from a fresh non-training policy. -/
theorem non_training_never_stops_witness :
    run 1500 (init false) [] = Except.ok (init false) ∧
    (init false).step_num = 0 ∧ (init false).stop_sender = false :=
  ⟨rfl, non_training_never_stops 1500 [] (init false) rfl⟩

/-- Claim C3: on each acknowledgment event, after the statistics update, the
step-ended actions execute exactly when strictly more than the minimum step
length has elapsed since the last boundary (or since the first ack, which
initializes step_start_ts), never more than once per event, and
step_start_ts is reset to the current time when a boundary fires.  The
per-step EWMA fields are unset in the result exactly when the boundary
fired, and step counting advances by one exactly on a training-mode
boundary. -/
theorem step_cadence :
    ∀ (ts now : ℤ) (p : Policy) (ack : Ack) (q : Policy),
      ack_received ts now p ack = Except.ok q →
      (q.rtt_ewma.isNone = decide (min_step_len < now - p.step_start_ts.getD now) ∧
        q.delay_ewma.isNone = decide (min_step_len < now - p.step_start_ts.getD now) ∧
        q.send_rate_ewma.isNone = decide (min_step_len < now - p.step_start_ts.getD now) ∧
        q.delivery_rate_ewma.isNone = decide (min_step_len < now - p.step_start_ts.getD now)) ∧
      q.step_start_ts = some (if min_step_len < now - p.step_start_ts.getD now then now
        else p.step_start_ts.getD now) ∧
      q.step_num = (if min_step_len < now - p.step_start_ts.getD now ∧ p.train = true
        then p.step_num + 1 else p.step_num) := by
  intro ts now p ack q h
  rw [ack_received_eq] at h
  by_cases hfire : min_step_len < now - p.step_start_ts.getD now
  · rw [if_pos hfire] at h
    obtain ⟨htr, hsts, _, _, hr, hd, hsr, hdr, hsn, _, _, _⟩ := step_ended_ok_of_update h
    refine ⟨⟨?_, ?_, ?_, ?_⟩, ?_, ?_⟩
    · rw [hr]
      simp [hfire]
    · rw [hd]
      simp [hfire]
    · rw [hsr]
      simp [hfire]
    · rw [hdr]
      simp [hfire]
    · rw [if_pos hfire]
      exact hsts
    · simp only [hfire, true_and]
      exact hsn
  · rw [if_neg hfire] at h
    injection h with h
    subst h
    refine ⟨⟨?_, ?_, ?_, ?_⟩, ?_, ?_⟩
    · simp [hfire, update_state_rtt_ewma]
    · simp [hfire, update_state_delay_ewma]
    · simp [hfire, update_state_send_rate_ewma]
    · simp [hfire, update_state_delivery_rate_ewma]
    · simp [hfire]
    · simp [hfire, update_state_step_num]

/-- Witness for C3: the first acknowledgment of a fresh policy at clock 0
does not cross a step boundary and leaves step counting unchanged. -/
theorem step_cadence_witness :
    ack_received 1 0 (init false) ack0 = Except.ok first_ack_state ∧
    first_ack_state.step_num =
      (if min_step_len < 0 - (init false).step_start_ts.getD 0 ∧ (init false).train = true
        then (init false).step_num + 1 else (init false).step_num) := by
  have h : ack_received 1 0 (init false) ack0 = Except.ok first_ack_state := by
    norm_num [ack_received, update_state, update_ewma, min_bound, init, first_ack_state,
      ack0, min_step_len]
  exact ⟨h, (step_cadence 1 0 (init false) ack0 first_ack_state h).2.2⟩

/-- Claim C7: whenever a step boundary is evaluated during ack_received, all
four per-step EWMA fields are set, because every acknowledgment updates all
four before the boundary check; consequently an acknowledgment can never
terminate through the unset-field normalization failure. -/
theorem ewma_defined_at_boundary :
    (∀ (p : Policy) (ack : Ack),
      (update_state p ack).rtt_ewma.isSome = true ∧
      (update_state p ack).delay_ewma.isSome = true ∧
      (update_state p ack).send_rate_ewma.isSome = true ∧
      (update_state p ack).delivery_rate_ewma.isSome = true) ∧
    (∀ (ts now : ℤ) (p : Policy) (ack : Ack) (e : Err),
      ack_received ts now p ack = Except.error e → (e == Err.ewma_unset) = false) := by
  constructor
  · intro p ack
    refine ⟨?_, ?_, ?_, ?_⟩
    · rw [update_state_rtt_ewma]
      rfl
    · rw [update_state_delay_ewma]
      rfl
    · rw [update_state_send_rate_ewma]
      rfl
    · rw [update_state_delivery_rate_ewma]
      rfl
  · intro ts now p ack e h
    rw [ack_received_eq] at h
    by_cases hfire : min_step_len < now - p.step_start_ts.getD now
    · rw [if_pos hfire, step_ended_update_state] at h
      have hu : ({ p with ack_recv_ts := now, bytes_acked := p.bytes_acked + ts } : Policy).sample_action = p.sample_action := rfl
      rw [hu] at h
      cases hsa : p.sample_action with
      | none =>
        rw [hsa] at h
        simp at h
        subst h
        rfl
      | some f =>
        rw [hsa] at h
        simp only [except_map_error_iff, take_action_error_iff] at h
        obtain ⟨-, he⟩ := h
        subst he
        rfl
    · rw [if_neg hfire] at h
      exact Except.noConfusion h

/-- Witness for C7: a boundary-crossing acknowledgment with no registered
action-selection function terminates with the registration error, which is
not the unset-field error. -/
theorem ewma_defined_at_boundary_witness :
    ack_received 1 0 boundary_state ack0 = Except.error Err.no_sample_action ∧
    (Err.no_sample_action == Err.ewma_unset) = false :=
  ⟨rfl, ewma_defined_at_boundary.2 1 0 boundary_state ack0 Err.no_sample_action rfl⟩

/-- Claim C8: processing an acknowledgment terminates fatally exactly when a
step boundary is reached and either no action-selection function has been
registered, or the registered function returns an index outside the action
vocabulary; numeric edge cases never terminate the event. -/
theorem fatal_error_conditions :
    ∀ (ts now : ℤ) (p : Policy) (ack : Ack),
      (∃ e, ack_received ts now p ack = Except.error e) ↔
        (fires p (Event.ack_received now ack) = true ∧
          (p.sample_action = none ∨
            ∃ f, p.sample_action = some f ∧
              (f (observation (update_state
                  { p with ack_recv_ts := now, bytes_acked := p.bytes_acked + ts } ack)) < 0 ∨
                (action_cnt : ℤ) ≤ f (observation (update_state
                  { p with ack_recv_ts := now, bytes_acked := p.bytes_acked + ts } ack))))) := by
  intro ts now p ack
  rw [ack_received_eq, fires_ack]
  by_cases hfire : min_step_len < now - p.step_start_ts.getD now
  · rw [if_pos hfire, step_ended_update_state]
    have hu : ({ p with ack_recv_ts := now, bytes_acked := p.bytes_acked + ts } : Policy).sample_action = p.sample_action := rfl
    rw [hu]
    cases hsa : p.sample_action with
    | none => simp [hfire]
    | some f => simp [hfire, except_map_error_iff, take_action_error_iff]
  · rw [if_neg hfire]
    simp [hfire]

/-- Claim C9: the rtt and duration used as denominators in the state update
are clamped to a minimum of 1; an event whose receive stamp equals the send
stamp resolves rtt to 1, the denominators are strictly positive rationals,
and the send-rate and delivery-rate EWMA samples divide by exactly these
clamped values. -/
theorem zero_division_guard :
    ∀ (p : Policy) (ack : Ack),
      1 ≤ max 1 (p.ack_recv_ts - ack.send_ts) ∧
      1 ≤ max 1 (p.ack_recv_ts - ack.ack_recv_ts) ∧
      (p.ack_recv_ts = ack.send_ts → max 1 (p.ack_recv_ts - ack.send_ts) = 1) ∧
      (0 : ℚ) < ((max 1 (p.ack_recv_ts - ack.send_ts) : ℤ) : ℚ) ∧
      (0 : ℚ) < ((max 1 (p.ack_recv_ts - ack.ack_recv_ts) : ℤ) : ℚ) ∧
      (update_state p ack).rtt_ewma =
        some (update_ewma p.rtt_ewma ((max 1 (p.ack_recv_ts - ack.send_ts) : ℤ) : ℚ)) ∧
      (update_state p ack).send_rate_ewma =
        some (update_ewma p.send_rate_ewma
          (0.008 * ((p.bytes_sent - ack.bytes_sent : ℤ) : ℚ) /
            ((max 1 (p.ack_recv_ts - ack.send_ts) : ℤ) : ℚ))) ∧
      (update_state p ack).delivery_rate_ewma =
        some (update_ewma p.delivery_rate_ewma
          (0.008 * ((p.bytes_acked - ack.bytes_acked : ℤ) : ℚ) /
            ((max 1 (p.ack_recv_ts - ack.ack_recv_ts) : ℤ) : ℚ))) := by
  intro p ack
  refine ⟨le_max_left _ _, le_max_left _ _, ?_, ?_, ?_,
    update_state_rtt_ewma p ack, update_state_send_rate_ewma p ack,
    update_state_delivery_rate_ewma p ack⟩
  · intro hEq
    rw [hEq, sub_self]
    norm_num
  · exact_mod_cast lt_of_lt_of_le zero_lt_one (le_max_left 1 (p.ack_recv_ts - ack.send_ts))
  · exact_mod_cast lt_of_lt_of_le zero_lt_one (le_max_left 1 (p.ack_recv_ts - ack.ack_recv_ts))

/-- Witness for C9: a same-millisecond acknowledgment on a fresh policy has
its clamped rtt equal to 1. -/
theorem zero_division_guard_witness :
    (init false).ack_recv_ts = ack0.send_ts ∧
    max 1 ((init false).ack_recv_ts - ack0.send_ts) = 1 :=
  ⟨rfl, (zero_division_guard (init false) ack0).2.2.1 rfl⟩

end Indigo
